import Mathlib

/-!
Verification of the appointment admission and lifecycle engine of the
`llm-appointment-booking-chatbot` repository (`src/main.py`).

The embedding models a Python `datetime` value as the number of seconds
since an epoch, taken in the offset the value carries (the code compares
`appointment_time` values directly and reads `.date()`, `.hour`,
`.minute` off the carried representation, so a single seconds counter
captures every operation the code performs on times).  The SQLAlchemy
store is modelled as a list of records in insertion order; a
`query(...).filter(...).first()` call becomes `List.find?`.  A commit
that the store rejects (`SQLAlchemyError`, e.g. a uniqueness-constraint
race lost at commit time) is modelled by a `commitFails` flag: on
failure the code rolls back, so the store is returned unchanged.
-/

namespace Booking

/-- Model of a Python `datetime`: seconds since an epoch, in the offset
the value carries.  Python datetimes are bounded below by year 1, so a
natural number suffices. -/
structure PyDateTime where
  secs : Nat
deriving DecidableEq, Repr

/-- Python `datetime.date()`: the calendar day number of the value. -/
def PyDateTime.date (t : PyDateTime) : Nat := t.secs / 86400

/-- Python `datetime.hour`. -/
def PyDateTime.hour (t : PyDateTime) : Nat := t.secs % 86400 / 3600

/-- Python `datetime.minute`. -/
def PyDateTime.minute (t : PyDateTime) : Nat := t.secs % 3600 / 60

/-- Python `datetime.second`. -/
def PyDateTime.second (t : PyDateTime) : Nat := t.secs % 60

/-- Python `datetime + timedelta` for a nonnegative number of seconds. -/
def PyDateTime.addSeconds (t : PyDateTime) (d : Nat) : PyDateTime := ⟨t.secs + d⟩

/-- The fixed business-timezone shift of `main.py`:
`ist_offset = timedelta(hours=5, minutes=30)`, in seconds. -/
def istOffsetSecs : Nat := 5 * 3600 + 30 * 60

/-- The date of `now + 5:30` (`today_ist_date` in `create_appointment`). -/
def todayIstDate (now_utc : PyDateTime) : Nat :=
  (now_utc.addSeconds istOffsetSecs).date

/-- The `status` column values admitted by the pydantic `Appoint` model:
`Literal['approved', 'rejected', 'pending']`. -/
inductive Status where
  | pending
  | approved
  | rejected
deriving DecidableEq, Repr

/-- A row of the `appointments` table (`AppointmentDB` in `main.py`). -/
structure AppointmentRec where
  id : String
  name : String
  email : String
  appointment_time : PyDateTime
  status : Status
  created_at : PyDateTime
deriving DecidableEq, Repr

/-- The validated request body (pydantic model `Appoint` in `main.py`):
after validation the `status` field always holds a value. -/
structure Appoint where
  id : String
  name : String
  email : String
  appointment_time : PyDateTime
  status : Status
deriving DecidableEq, Repr

/-- The raw request payload before pydantic validation: the caller may
omit `status` (`Field('pending', ...)` declares the default). -/
structure AppointPayload where
  id : String
  name : String
  email : String
  appointment_time : PyDateTime
  status : Option Status
deriving DecidableEq, Repr

/-- Pydantic validation of the request body: an omitted `status`
defaults to `pending`, per `Field('pending', ...)` in `main.py`. -/
def parseAppoint (p : AppointPayload) : Appoint :=
  { id := p.id, name := p.name, email := p.email,
    appointment_time := p.appointment_time,
    status := p.status.getD Status.pending }

/-- Outcome of the `/create` endpoint: a 200 JSON response carrying the
new appointment id, a 400 `HTTPException` with a detail string, or a 500
`HTTPException` (database error). -/
inductive CreateResult where
  | created (appointment_id : String)
  | badRequest (detail : String)
  | serverError (detail : String)
deriving DecidableEq, Repr

/-- Detail string of the duplicate-id rejection in `create_appointment`. -/
def dupIdDetail (id : String) : String :=
  "Appointment with ID " ++ id ++ " already exists"

/-- Detail string of the slot-taken rejection in `create_appointment`. -/
def slotTakenDetail : String := "Appointment time already exists"

/-- Detail string of the date-window rejection in `create_appointment`. -/
def outOfWindowDetail : String :=
  "Appointment must be for today or within the next 2 days only (inclusive of today)."

/-- Detail string of the business-hours rejection in `create_appointment`. -/
def offHoursDetail : String :=
  "Appointment time must be between 9:00 AM and 7:00 PM with 0 minutes (on the hour)."

/-- Detail string of the 404 raised by the detail/accept/reject endpoints. -/
def notFoundDetail : String := "No appointment found with this id"

/-- Detail prefix of the 500 raised when the store rejects a commit
(`f"Database error: \x7be\x7d"`; the exception text is
environment-dependent and abstracted away). -/
def dbErrorDetail : String := "Database error"

/-- The `/create` endpoint (`create_appointment` in `main.py`).
`commitFails` models the store raising `SQLAlchemyError` at commit time
(e.g. a uniqueness constraint violated by a concurrent writer); the
handler then rolls back, so the store is returned unchanged. -/
def create_appointment (now_utc : PyDateTime) (commitFails : Bool)
    (new_appoint : Appoint) (db : List AppointmentRec) :
    CreateResult × List AppointmentRec :=
  match db.find? (fun a => a.id == new_appoint.id) with
  | some _ => (CreateResult.badRequest (dupIdDetail new_appoint.id), db)
  | none =>
    let current_ist_time := now_utc.addSeconds istOffsetSecs
    let today_ist_date := current_ist_time.date
    let appointment_dt_ist := new_appoint.appointment_time
    let appointment_date := appointment_dt_ist.date
    let latest_allowed_date := today_ist_date + 2
    match db.find? (fun a => a.appointment_time == new_appoint.appointment_time) with
    | some _ => (CreateResult.badRequest slotTakenDetail, db)
    | none =>
      if ¬ (today_ist_date ≤ appointment_date ∧ appointment_date ≤ latest_allowed_date) then
        (CreateResult.badRequest outOfWindowDetail, db)
      else if ¬ (9 ≤ appointment_dt_ist.hour ∧ appointment_dt_ist.hour < 19 ∧
                 appointment_dt_ist.minute = 0) then
        (CreateResult.badRequest offHoursDetail, db)
      else
        let db_appointment : AppointmentRec :=
          { id := new_appoint.id, name := new_appoint.name, email := new_appoint.email,
            appointment_time := new_appoint.appointment_time,
            status := new_appoint.status, created_at := current_ist_time }
        if commitFails then
          (CreateResult.serverError dbErrorDetail, db)
        else
          (CreateResult.created db_appointment.id, db ++ [db_appointment])

/-- Outcome of the `/accept/\x7bid\x7d` and `/reject/\x7bid\x7d`
endpoints: a 200 JSON response carrying the id, a 404, or a 500. -/
inductive TransitionResult where
  | ok (appointment_id : String)
  | notFound (detail : String)
  | serverError (detail : String)
deriving DecidableEq, Repr

/-- Mutating the row returned by `query(...).filter(id == ...).first()`
and committing: the first record with the given id gets the new status,
all other records are untouched. -/
def setStatusFirst (id : String) (st : Status) : List AppointmentRec → List AppointmentRec
  | [] => []
  | a :: rest =>
    if a.id = id then { a with status := st } :: rest
    else a :: setStatusFirst id st rest

/-- The `/accept/\x7bid\x7d` endpoint (`accept_appointment` in
`main.py`): look up by id; if found, set `status = 'approved'` and
commit (rolling back on a store failure); otherwise 404. -/
def accept_appointment (commitFails : Bool) (id : String)
    (db : List AppointmentRec) : TransitionResult × List AppointmentRec :=
  match db.find? (fun a => a.id == id) with
  | some _ =>
    if commitFails then (TransitionResult.serverError dbErrorDetail, db)
    else (TransitionResult.ok id, setStatusFirst id Status.approved db)
  | none => (TransitionResult.notFound notFoundDetail, db)

/-- The `/reject/\x7bid\x7d` endpoint (`reject_appointment` in
`main.py`): identical to accept with `status = 'rejected'`. -/
def reject_appointment (commitFails : Bool) (id : String)
    (db : List AppointmentRec) : TransitionResult × List AppointmentRec :=
  match db.find? (fun a => a.id == id) with
  | some _ =>
    if commitFails then (TransitionResult.serverError dbErrorDetail, db)
    else (TransitionResult.ok id, setStatusFirst id Status.rejected db)
  | none => (TransitionResult.notFound notFoundDetail, db)

/-- A mutating operation of the API (the read-only endpoints do not
change the store). -/
inductive Op where
  | create (now_utc : PyDateTime) (commitFails : Bool) (c : Appoint)
  | accept (commitFails : Bool) (id : String)
  | reject (commitFails : Bool) (id : String)

/-- The store state after one operation. -/
def applyOp (db : List AppointmentRec) : Op → List AppointmentRec
  | Op.create now_utc cf c => (create_appointment now_utc cf c db).2
  | Op.accept cf id => (accept_appointment cf id db).2
  | Op.reject cf id => (reject_appointment cf id db).2

/-- The store state reached from the empty store by a sequence of
operations. -/
def run (ops : List Op) : List AppointmentRec :=
  ops.foldl applyOp []

/-- The ids stored in the table, in row order. -/
def idsOf (db : List AppointmentRec) : List String :=
  db.map AppointmentRec.id

/-- The appointment times stored in the table, in row order. -/
def timesOf (db : List AppointmentRec) : List PyDateTime :=
  db.map AppointmentRec.appointment_time

/-- The uniqueness constraints of the `appointments` table: `id` is the
primary key and `appointment_time` carries a unique constraint. -/
def StoreInvariant (db : List AppointmentRec) : Prop :=
  (idsOf db).Nodup ∧ (timesOf db).Nodup

/-! Reduction helpers for the lookup pre-checks. -/

theorem find?_id_eq_none {db : List AppointmentRec} {i : String}
    (h : ∀ a ∈ db, a.id ≠ i) : db.find? (fun a => a.id == i) = none := by
  rw [List.find?_eq_none]
  intro a ha
  simpa using h a ha

theorem find?_time_eq_none {db : List AppointmentRec} {t : PyDateTime}
    (h : ∀ a ∈ db, a.appointment_time ≠ t) :
    db.find? (fun a => a.appointment_time == t) = none := by
  rw [List.find?_eq_none]
  intro a ha
  simpa using h a ha

theorem find?_id_isSome {db : List AppointmentRec} {i : String}
    (h : ∃ a ∈ db, a.id = i) : (db.find? (fun a => a.id == i)).isSome := by
  rw [List.find?_isSome]
  obtain ⟨a, ha, hid⟩ := h
  exact ⟨a, ha, by simpa using hid⟩

theorem find?_time_isSome {db : List AppointmentRec} {t : PyDateTime}
    (h : ∃ a ∈ db, a.appointment_time = t) :
    (db.find? (fun a => a.appointment_time == t)).isSome := by
  rw [List.find?_isSome]
  obtain ⟨a, ha, ht⟩ := h
  exact ⟨a, ha, by simpa using ht⟩

/-- C1: the admission checks run in the fixed order duplicate-id,
slot-taken, date-window, off-hours, and the error of the first failing
check is returned: a duplicate id wins over everything, a taken slot
wins over window and hours violations, and a window violation wins over
an hours violation. -/
theorem C1_check_precedence (now_utc : PyDateTime) (cf : Bool)
    (c : Appoint) (db : List AppointmentRec) :
    ((∃ a ∈ db, a.id = c.id) →
      (create_appointment now_utc cf c db).1
        = CreateResult.badRequest (dupIdDetail c.id))
    ∧ ((∀ a ∈ db, a.id ≠ c.id) →
       (∃ a ∈ db, a.appointment_time = c.appointment_time) →
      (create_appointment now_utc cf c db).1
        = CreateResult.badRequest slotTakenDetail)
    ∧ ((∀ a ∈ db, a.id ≠ c.id) →
       (∀ a ∈ db, a.appointment_time ≠ c.appointment_time) →
       ¬ (todayIstDate now_utc ≤ c.appointment_time.date ∧
          c.appointment_time.date ≤ todayIstDate now_utc + 2) →
      (create_appointment now_utc cf c db).1
        = CreateResult.badRequest outOfWindowDetail)
    ∧ ((∀ a ∈ db, a.id ≠ c.id) →
       (∀ a ∈ db, a.appointment_time ≠ c.appointment_time) →
       (todayIstDate now_utc ≤ c.appointment_time.date ∧
        c.appointment_time.date ≤ todayIstDate now_utc + 2) →
       ¬ (9 ≤ c.appointment_time.hour ∧ c.appointment_time.hour < 19 ∧
          c.appointment_time.minute = 0) →
      (create_appointment now_utc cf c db).1
        = CreateResult.badRequest offHoursDetail) := by
  refine ⟨?_, ?_, ?_, ?_⟩
  · intro hex
    have hs := find?_id_isSome hex
    cases hfind : db.find? (fun a => a.id == c.id) with
    | none => rw [hfind] at hs; simp at hs
    | some b => simp [create_appointment, hfind]
  · intro hid hex
    have h1 := find?_id_eq_none hid
    have hs := find?_time_isSome hex
    cases hfind : db.find? (fun a => a.appointment_time == c.appointment_time) with
    | none => rw [hfind] at hs; simp at hs
    | some b => simp [create_appointment, h1, hfind]
  · intro hid ht hw
    have h1 := find?_id_eq_none hid
    have h2 := find?_time_eq_none ht
    rw [todayIstDate] at hw
    simp [create_appointment, h1, h2, hw]
  · intro hid ht hw hh
    have h1 := find?_id_eq_none hid
    have h2 := find?_time_eq_none ht
    rw [todayIstDate] at hw
    simp [create_appointment, h1, h2, hw, hh]

/-- Stored record used by concrete admission scenarios: id "1" at
10:00 on day 0. -/
def recD0 : AppointmentRec :=
  { id := "1", name := "n", email := "e", appointment_time := ⟨36000⟩,
    status := Status.pending, created_at := ⟨0⟩ }

/-- Candidate reusing both the id and the time of `recD0`. -/
def candDupBoth : Appoint :=
  { id := "1", name := "m", email := "f", appointment_time := ⟨36000⟩,
    status := Status.pending }

/-- Candidate with a fresh id reusing the (out-of-window, at day 10)
time of `recD0`. -/
def candSlotAndWindow : Appoint :=
  { id := "2", name := "m", email := "f", appointment_time := ⟨36000⟩,
    status := Status.pending }

theorem C1_check_precedence_witness :
    (create_appointment ⟨864000⟩ false candDupBoth [recD0]).1
      = CreateResult.badRequest (dupIdDetail "1")
    ∧ (create_appointment ⟨864000⟩ false candSlotAndWindow [recD0]).1
      = CreateResult.badRequest slotTakenDetail := by
  constructor
  · exact (C1_check_precedence ⟨864000⟩ false candDupBoth [recD0]).1 (by decide)
  · exact (C1_check_precedence ⟨864000⟩ false candSlotAndWindow [recD0]).2.1
      (by decide) (by decide)

/-- C2: past the id and slot checks, admission rejects with the
out-of-window error exactly when the date of the appointment time lies
strictly before today or strictly after today plus two days, with today
taken on the clock shifted by 5:30. -/
theorem C2_date_window (now_utc : PyDateTime) (cf : Bool)
    (c : Appoint) (db : List AppointmentRec)
    (hid : ∀ a ∈ db, a.id ≠ c.id)
    (ht : ∀ a ∈ db, a.appointment_time ≠ c.appointment_time) :
    (create_appointment now_utc cf c db).1 = CreateResult.badRequest outOfWindowDetail ↔
      (c.appointment_time.date < todayIstDate now_utc ∨
       todayIstDate now_utc + 2 < c.appointment_time.date) := by
  have h1 := find?_id_eq_none hid
  have h2 := find?_time_eq_none ht
  by_cases hw : (now_utc.addSeconds istOffsetSecs).date ≤ c.appointment_time.date ∧
      c.appointment_time.date ≤ (now_utc.addSeconds istOffsetSecs).date + 2
  · refine iff_of_false ?_ ?_
    · by_cases hh : 9 ≤ c.appointment_time.hour ∧ c.appointment_time.hour < 19 ∧
          c.appointment_time.minute = 0
      · cases cf <;>
          simp [create_appointment, h1, h2, hw, hh, dbErrorDetail, outOfWindowDetail]
      · simp [create_appointment, h1, h2, hw, hh, offHoursDetail, outOfWindowDetail]
    · rw [todayIstDate]
      omega
  · refine iff_of_true ?_ ?_
    · simp [create_appointment, h1, h2, hw]
    · rw [todayIstDate]
      omega

/-- Candidate whose appointment time lies on day 5 at 10:00, used for
the window scenario under a clock at day 0. -/
def candDay5 : Appoint :=
  { id := "3", name := "m", email := "f",
    appointment_time := ⟨5 * 86400 + 36000⟩, status := Status.pending }

theorem C2_date_window_witness :
    ((create_appointment ⟨0⟩ false candDay5 []).1
        = CreateResult.badRequest outOfWindowDetail ↔
      (candDay5.appointment_time.date < todayIstDate ⟨0⟩ ∨
       todayIstDate ⟨0⟩ + 2 < candDay5.appointment_time.date)) :=
  C2_date_window ⟨0⟩ false candDay5 [] (by decide) (by decide)

/-- C3: past the id, slot and window checks, admission rejects with the
off-hours error exactly when the appointment time is not on the hour
between 09:00 and 18:00 inclusive (hour in `[9, 19)` with minute 0);
19:00 exactly, 8:00, and any non-zero minute are rejected, and on-hour
times at 09:00 through 18:00 never trigger this error. -/
theorem C3_business_hours (now_utc : PyDateTime) (cf : Bool)
    (c : Appoint) (db : List AppointmentRec)
    (hid : ∀ a ∈ db, a.id ≠ c.id)
    (ht : ∀ a ∈ db, a.appointment_time ≠ c.appointment_time)
    (hw : todayIstDate now_utc ≤ c.appointment_time.date ∧
          c.appointment_time.date ≤ todayIstDate now_utc + 2) :
    (create_appointment now_utc cf c db).1 = CreateResult.badRequest offHoursDetail ↔
      ¬ (9 ≤ c.appointment_time.hour ∧ c.appointment_time.hour < 19 ∧
         c.appointment_time.minute = 0) := by
  have h1 := find?_id_eq_none hid
  have h2 := find?_time_eq_none ht
  rw [todayIstDate] at hw
  by_cases hh : 9 ≤ c.appointment_time.hour ∧ c.appointment_time.hour < 19 ∧
      c.appointment_time.minute = 0
  · refine iff_of_false ?_ (by simpa using hh)
    cases cf <;>
      simp [create_appointment, h1, h2, hw, hh, dbErrorDetail, offHoursDetail]
  · refine iff_of_true ?_ hh
    simp [create_appointment, h1, h2, hw, hh]

/-- Candidate whose appointment time is 19:00 exactly on day 0. -/
def candAt19 : Appoint :=
  { id := "4", name := "m", email := "f",
    appointment_time := ⟨19 * 3600⟩, status := Status.pending }

theorem C3_business_hours_witness :
    ((create_appointment ⟨0⟩ false candAt19 []).1
        = CreateResult.badRequest offHoursDetail ↔
      ¬ (9 ≤ candAt19.appointment_time.hour ∧ candAt19.appointment_time.hour < 19 ∧
         candAt19.appointment_time.minute = 0)) :=
  C3_business_hours ⟨0⟩ false candAt19 [] (by decide) (by decide) (by decide)

/-- C5: when every check passes and the commit succeeds, admission
appends exactly one record carrying the candidate's id, name, email and
appointment time, the caller-supplied status (pending when the payload
omitted it), and `created_at = now + 5:30`, and returns the 200 response
carrying the new id; every previously stored record is untouched. -/
theorem C5_admission_persists (now_utc : PyDateTime) (p : AppointPayload)
    (db : List AppointmentRec)
    (hid : ∀ a ∈ db, a.id ≠ p.id)
    (ht : ∀ a ∈ db, a.appointment_time ≠ p.appointment_time)
    (hw : todayIstDate now_utc ≤ p.appointment_time.date ∧
          p.appointment_time.date ≤ todayIstDate now_utc + 2)
    (hh : 9 ≤ p.appointment_time.hour ∧ p.appointment_time.hour < 19 ∧
          p.appointment_time.minute = 0) :
    create_appointment now_utc false (parseAppoint p) db =
      (CreateResult.created p.id,
       db ++ [{ id := p.id, name := p.name, email := p.email,
                appointment_time := p.appointment_time,
                status := p.status.getD Status.pending,
                created_at := now_utc.addSeconds istOffsetSecs }]) := by
  have h1 := find?_id_eq_none hid
  have h2 := find?_time_eq_none ht
  rw [todayIstDate] at hw
  simp [create_appointment, parseAppoint, h1, h2, hw, hh]

/-- Payload on day 0 at 10:00 with `status` omitted. -/
def payloadDefault : AppointPayload :=
  { id := "5", name := "n", email := "e", appointment_time := ⟨36000⟩,
    status := none }

theorem C5_admission_persists_witness :
    create_appointment ⟨0⟩ false (parseAppoint payloadDefault) [] =
      (CreateResult.created payloadDefault.id,
       [] ++ [{ id := payloadDefault.id, name := payloadDefault.name,
                email := payloadDefault.email,
                appointment_time := payloadDefault.appointment_time,
                status := payloadDefault.status.getD Status.pending,
                created_at := PyDateTime.addSeconds ⟨0⟩ istOffsetSecs }]) :=
  C5_admission_persists ⟨0⟩ payloadDefault [] (by decide) (by decide)
    (by decide) (by decide)

/-- Candidate on day 0 at 10:00 passing every pre-check over the empty
store, used for the commit-failure scenario. -/
def candCommitRace : Appoint :=
  { id := "6", name := "n", email := "e", appointment_time := ⟨36000⟩,
    status := Status.pending }

theorem C6_counterexample :
    (create_appointment ⟨0⟩ true candCommitRace []).1
      = CreateResult.serverError dbErrorDetail
    ∧ (create_appointment ⟨0⟩ true candCommitRace []).1
      ≠ CreateResult.badRequest (dupIdDetail "6")
    ∧ (create_appointment ⟨0⟩ true candCommitRace []).1
      ≠ CreateResult.badRequest slotTakenDetail := by decide

/-- C6 amended: a store write that fails at commit time (for example a
uniqueness-constraint race lost to a concurrent writer) is caught and
rolled back, and surfaced as the generic 500 database error — not as
the DuplicateId or SlotTaken rejection; the store is left unchanged. -/
theorem C6_commit_failure_generic (now_utc : PyDateTime) (c : Appoint)
    (db : List AppointmentRec)
    (hid : ∀ a ∈ db, a.id ≠ c.id)
    (ht : ∀ a ∈ db, a.appointment_time ≠ c.appointment_time)
    (hw : todayIstDate now_utc ≤ c.appointment_time.date ∧
          c.appointment_time.date ≤ todayIstDate now_utc + 2)
    (hh : 9 ≤ c.appointment_time.hour ∧ c.appointment_time.hour < 19 ∧
          c.appointment_time.minute = 0) :
    create_appointment now_utc true c db
      = (CreateResult.serverError dbErrorDetail, db) := by
  have h1 := find?_id_eq_none hid
  have h2 := find?_time_eq_none ht
  rw [todayIstDate] at hw
  simp [create_appointment, h1, h2, hw, hh]

theorem C6_commit_failure_generic_witness :
    create_appointment ⟨0⟩ true candCommitRace []
      = (CreateResult.serverError dbErrorDetail, []) :=
  C6_commit_failure_generic ⟨0⟩ candCommitRace [] (by decide) (by decide)
    (by decide) (by decide)

/-- C7: accepting or rejecting an id that is not stored yields the 404
not-found outcome and returns the store unchanged, whether or not the
commit would have succeeded. -/
theorem C7_transition_notFound (cf : Bool) (i : String)
    (db : List AppointmentRec) (h : ∀ a ∈ db, a.id ≠ i) :
    accept_appointment cf i db = (TransitionResult.notFound notFoundDetail, db)
    ∧ reject_appointment cf i db = (TransitionResult.notFound notFoundDetail, db) := by
  have h1 := find?_id_eq_none h
  exact ⟨by simp [accept_appointment, h1], by simp [reject_appointment, h1]⟩

theorem C7_transition_notFound_witness :
    accept_appointment false "9" [recD0]
      = (TransitionResult.notFound notFoundDetail, [recD0])
    ∧ reject_appointment false "9" [recD0]
      = (TransitionResult.notFound notFoundDetail, [recD0]) :=
  C7_transition_notFound false "9" [recD0] (by decide)

/-! Lemmas about the status update of the transition endpoints. -/

theorem find?_setStatusFirst_self (st : Status) {i : String}
    {db : List AppointmentRec} {a : AppointmentRec}
    (h : db.find? (fun x => x.id == i) = some a) :
    (setStatusFirst i st db).find? (fun x => x.id == i)
      = some { a with status := st } := by
  induction db with
  | nil => simp at h
  | cons b rest ih =>
    by_cases hb : b.id = i
    · rw [List.find?_cons_of_pos _ (by simpa using hb)] at h
      injection h with h
      subst h
      rw [setStatusFirst, if_pos hb]
      exact List.find?_cons_of_pos _ (by simpa using hb)
    · rw [List.find?_cons_of_neg _ (by simpa using hb)] at h
      rw [setStatusFirst, if_neg hb]
      rw [List.find?_cons_of_neg _ (by simpa using hb)]
      exact ih h

theorem setStatusFirst_idem (i : String) (st : Status)
    (db : List AppointmentRec) :
    setStatusFirst i st (setStatusFirst i st db) = setStatusFirst i st db := by
  induction db with
  | nil => rfl
  | cons b rest ih =>
    by_cases hb : b.id = i
    · simp [setStatusFirst, hb]
    · simp [setStatusFirst, hb, ih]

/-- C8: on a stored id, accept always succeeds with no precondition on
the current status: the matched record's status becomes `approved` (its
other fields untouched), the endpoint returns the 200 outcome, and a
second accept returns the same outcome and leaves the store exactly as
after the first (accept is idempotent). -/
theorem C8_accept_idempotent (i : String) (db : List AppointmentRec)
    (a : AppointmentRec) (h : db.find? (fun x => x.id == i) = some a) :
    (accept_appointment false i db).1 = TransitionResult.ok i
    ∧ ((accept_appointment false i db).2).find? (fun x => x.id == i)
        = some { a with status := Status.approved }
    ∧ accept_appointment false i ((accept_appointment false i db).2)
        = (TransitionResult.ok i, (accept_appointment false i db).2) := by
  have hdb2 : (accept_appointment false i db).2
      = setStatusFirst i Status.approved db := by
    simp [accept_appointment, h]
  have hfind2 := find?_setStatusFirst_self Status.approved h
  refine ⟨by simp [accept_appointment, h], ?_, ?_⟩
  · rw [hdb2]
    exact hfind2
  · rw [hdb2]
    simp [accept_appointment, hfind2, setStatusFirst_idem]

theorem C8_accept_idempotent_witness :
    (accept_appointment false "1" [recD0]).1 = TransitionResult.ok "1"
    ∧ ((accept_appointment false "1" [recD0]).2).find? (fun x => x.id == "1")
        = some { recD0 with status := Status.approved }
    ∧ accept_appointment false "1" ((accept_appointment false "1" [recD0]).2)
        = (TransitionResult.ok "1", (accept_appointment false "1" [recD0]).2) :=
  C8_accept_idempotent "1" [recD0] recD0 (by decide)

/-! Preservation of the uniqueness constraints. -/

theorem idsOf_setStatusFirst (i : String) (st : Status)
    (db : List AppointmentRec) : idsOf (setStatusFirst i st db) = idsOf db := by
  induction db with
  | nil => rfl
  | cons b rest ih =>
    by_cases hb : b.id = i
    · simp [setStatusFirst, hb, idsOf]
    · simp [setStatusFirst, hb, idsOf] at ih ⊢
      exact ih

theorem timesOf_setStatusFirst (i : String) (st : Status)
    (db : List AppointmentRec) :
    timesOf (setStatusFirst i st db) = timesOf db := by
  induction db with
  | nil => rfl
  | cons b rest ih =>
    by_cases hb : b.id = i
    · simp [setStatusFirst, hb, timesOf]
    · simp [setStatusFirst, hb, timesOf] at ih ⊢
      exact ih

theorem storeInvariant_append (db : List AppointmentRec) (r : AppointmentRec)
    (h : StoreInvariant db)
    (hid : ∀ a ∈ db, a.id ≠ r.id)
    (ht : ∀ a ∈ db, a.appointment_time ≠ r.appointment_time) :
    StoreInvariant (db ++ [r]) := by
  obtain ⟨hids, htimes⟩ := h
  constructor
  · rw [idsOf] at hids ⊢
    simp only [List.map_append, List.map_cons, List.map_nil]
    rw [List.nodup_append]
    refine ⟨hids, List.nodup_singleton _, ?_⟩
    intro x hx hx2
    rw [List.mem_singleton] at hx2
    obtain ⟨a, ha, hax⟩ := List.mem_map.mp hx
    exact hid a ha (hx2 ▸ hax)
  · rw [timesOf] at htimes ⊢
    simp only [List.map_append, List.map_cons, List.map_nil]
    rw [List.nodup_append]
    refine ⟨htimes, List.nodup_singleton _, ?_⟩
    intro x hx hx2
    rw [List.mem_singleton] at hx2
    obtain ⟨a, ha, hax⟩ := List.mem_map.mp hx
    exact ht a ha (hx2 ▸ hax)

theorem setStatusFirst_invariant (i : String) (st : Status)
    (db : List AppointmentRec) (h : StoreInvariant db) :
    StoreInvariant (setStatusFirst i st db) := by
  obtain ⟨hids, htimes⟩ := h
  exact ⟨by rw [idsOf_setStatusFirst]; exact hids,
         by rw [timesOf_setStatusFirst]; exact htimes⟩

theorem applyOp_invariant (db : List AppointmentRec) (op : Op)
    (h : StoreInvariant db) : StoreInvariant (applyOp db op) := by
  cases op with
  | create now_utc cf c =>
    show StoreInvariant (create_appointment now_utc cf c db).2
    cases hf1 : db.find? (fun a => a.id == c.id) with
    | some b => simpa [create_appointment, hf1] using h
    | none =>
      cases hf2 : db.find? (fun a => a.appointment_time == c.appointment_time) with
      | some b => simpa [create_appointment, hf1, hf2] using h
      | none =>
        have hid : ∀ a ∈ db, a.id ≠ c.id := by
          intro a ha
          simpa using List.find?_eq_none.mp hf1 a ha
        have ht : ∀ a ∈ db, a.appointment_time ≠ c.appointment_time := by
          intro a ha
          simpa using List.find?_eq_none.mp hf2 a ha
        by_cases hw : (now_utc.addSeconds istOffsetSecs).date ≤ c.appointment_time.date ∧
            c.appointment_time.date ≤ (now_utc.addSeconds istOffsetSecs).date + 2
        · by_cases hh : 9 ≤ c.appointment_time.hour ∧ c.appointment_time.hour < 19 ∧
              c.appointment_time.minute = 0
          · cases cf with
            | true => simpa [create_appointment, hf1, hf2, hw, hh] using h
            | false =>
              have hstep : (create_appointment now_utc false c db).2
                  = db ++ [{ id := c.id, name := c.name, email := c.email,
                             appointment_time := c.appointment_time,
                             status := c.status,
                             created_at := now_utc.addSeconds istOffsetSecs }] := by
                simp [create_appointment, hf1, hf2, hw, hh]
              rw [hstep]
              exact storeInvariant_append db _ h hid ht
          · simpa [create_appointment, hf1, hf2, hw, hh] using h
        · simpa [create_appointment, hf1, hf2, hw] using h
  | accept cf i =>
    show StoreInvariant (accept_appointment cf i db).2
    cases hf : db.find? (fun a => a.id == i) with
    | none => simpa [accept_appointment, hf] using h
    | some b =>
      cases cf with
      | true => simpa [accept_appointment, hf] using h
      | false =>
        have hstep : (accept_appointment false i db).2
            = setStatusFirst i Status.approved db := by
          simp [accept_appointment, hf]
        rw [hstep]
        exact setStatusFirst_invariant i Status.approved db h
  | reject cf i =>
    show StoreInvariant (reject_appointment cf i db).2
    cases hf : db.find? (fun a => a.id == i) with
    | none => simpa [reject_appointment, hf] using h
    | some b =>
      cases cf with
      | true => simpa [reject_appointment, hf] using h
      | false =>
        have hstep : (reject_appointment false i db).2
            = setStatusFirst i Status.rejected db := by
          simp [reject_appointment, hf]
        rw [hstep]
        exact setStatusFirst_invariant i Status.rejected db h

theorem foldl_applyOp_invariant (ops : List Op) :
    ∀ db, StoreInvariant db → StoreInvariant (ops.foldl applyOp db) := by
  induction ops with
  | nil => intro db h; exact h
  | cons op rest ih =>
    intro db h
    exact ih _ (applyOp_invariant db op h)

/-- C4: in every store reachable from the empty store by any sequence
of admissions, accepts and rejects (with commits succeeding or
failing), no two records share an id and no two records share an
appointment time. -/
theorem C4_reachable_uniqueness (ops : List Op) : StoreInvariant (run ops) :=
  foldl_applyOp_invariant ops [] ⟨List.nodup_nil, List.nodup_nil⟩

/-- Candidate on day 0 at 10:00:30 — minute 0 but 30 seconds past the
hour. -/
def candSeconds : Appoint :=
  { id := "9", name := "n", email := "e", appointment_time := ⟨36030⟩,
    status := Status.pending }

/-- C9: the business-hours check reads only the hour and the minute:
the candidate at 10:00:30 (minute 0, second 30) is admitted, and the
persisted record carries the sub-minute instant unchanged, so admitted
times are not restricted to exact on-the-hour instants. -/
theorem C9_subminute_admitted :
    candSeconds.appointment_time.minute = 0
    ∧ candSeconds.appointment_time.second = 30
    ∧ create_appointment ⟨0⟩ false candSeconds []
        = (CreateResult.created "9",
           [{ id := "9", name := "n", email := "e", appointment_time := ⟨36030⟩,
              status := Status.pending, created_at := ⟨19800⟩ }]) := by decide

/-- Candidate on day 0 at 10:00 carrying status `approved`. -/
def candApproved : Appoint :=
  { id := "10", name := "n", email := "e", appointment_time := ⟨36000⟩,
    status := Status.approved }

/-- Candidate on day 0 at 11:00 carrying status `rejected`. -/
def candRejected : Appoint :=
  { id := "11", name := "n", email := "e", appointment_time := ⟨39600⟩,
    status := Status.rejected }

/-- C10: a single admission with a caller-supplied `approved` (resp.
`rejected`) status persists that status directly: the store reached by
one create operation and no transition holds a record whose status is
`approved` (resp. `rejected`), so pending is not a mandatory initial
state. -/
theorem C10_caller_status_persisted :
    run [Op.create ⟨0⟩ false candApproved]
      = [{ id := "10", name := "n", email := "e", appointment_time := ⟨36000⟩,
           status := Status.approved, created_at := ⟨19800⟩ }]
    ∧ run [Op.create ⟨0⟩ false candRejected]
      = [{ id := "11", name := "n", email := "e", appointment_time := ⟨39600⟩,
           status := Status.rejected, created_at := ⟨19800⟩ }] := by decide

end Booking
